import Mathlib

/-!
# Verification of the ISO 11783 TaskData decoding core

Shallow embedding, in Lean 4, of the schema-resolution / binary-decoding core
of the ISO-11783 ISOBUS harvest-log reader (Python sources under `pyagri/` and
`pyAgriculture/`), together with proofs of the specified properties.

Conventions of the embedding:
* Python `float` arithmetic is idealised as exact rational arithmetic (`ℚ`).
* Python `dict`s appearing as *inputs* of a function are modelled as
  association lists with first-match lookup (`alookup`); `dict`s *built* by
  the code, where insertion order and overwriting matter, are modelled by
  `dictInsert` (upsert keeping first-insertion key order) or by append with
  last-match lookup (`dlookup`), matching CPython semantics.
* Python list indexing (negative indices wrap; out-of-range raises) is
  modelled by `pyGet` / `pySet` returning `Option`.
* Exceptions that the Python code does not catch are modelled by
  `Except String`; a caught exception is modelled inside the happy path
  (e.g. a warning counter).
-/

/-- Python `int()` truncation of a rational toward zero
(the denominator of a normalised `ℚ` is positive, so `Int.tdiv` of the
numerator by the denominator truncates toward zero). -/
def pytrunc (q : ℚ) : ℤ := q.num.tdiv q.den

/-- Python `l[i]` read: negative indices wrap once; out of range is `none`
(an `IndexError` in Python). -/
def pyGet {α : Type} (l : List α) (i : ℤ) : Option α :=
  if 0 ≤ i then l.get? i.toNat
  else if 0 ≤ i + l.length then l.get? (i + l.length).toNat
  else none

/-- Python `l[i] = v` write: negative indices wrap once; out of range is
`none` (an `IndexError` in Python). -/
def pySet {α : Type} (l : List α) (i : ℤ) (v : α) : Option (List α) :=
  if 0 ≤ i ∧ i < l.length then some (l.set i.toNat v)
  else if i < 0 ∧ 0 ≤ i + l.length then some (l.set (i + l.length).toNat v)
  else none

/-- Write that is known to succeed (used where the Python code has already
read the same index successfully); falls back to the unchanged list. -/
def pySetD {α : Type} (l : List α) (i : ℤ) (v : α) : List α :=
  (pySet l i v).getD l

/-- First-match association-list lookup (a Python `dict` taken as input,
whose keys are unique by construction). -/
def alookup {κ α : Type} [DecidableEq κ] : List (κ × α) → κ → Option α
  | [], _ => none
  | (k', v) :: rest, k => if k = k' then some v else alookup rest k

/-- Last-match association-list lookup: an append-based model of a Python
`dict` built by repeated assignment, where the last write to a key wins. -/
def dlookup {κ α : Type} [DecidableEq κ] (m : List (κ × α)) (k : κ) : Option α :=
  ((m.filter (fun p => p.1 = k)).getLast?).map Prod.snd

/-- Upsert preserving first-insertion key order: a Python `dict`
comprehension / assignment where a repeated key keeps its original position
but takes the newest value. -/
def dictInsert {κ α : Type} [DecidableEq κ] (m : List (κ × α)) (k : κ) (v : α) :
    List (κ × α) :=
  if (alookup m k).isSome then
    m.map (fun p => if p.1 = k then (k, v) else p)
  else m ++ [(k, v)]

/-! ## Binary DLV decoding (`pyagri/cython_agri_py.py`, `cython_read_dlvs`) -/

/-- A Device Value Presentation as stored in `task_dicts['DVP']`:
attribute `B` = offset, `C` = scale, `D` = decimal exponent, `E` = unit
(optional). -/
structure Dvp where
  B : ℚ
  C : ℚ
  D : ℤ
  E : Option String
deriving DecidableEq

/-- A Device Process Data entry as stored in `dpd_ids`: only its optional
DVP reference `F` is consulted by `cython_read_dlvs`. -/
structure Dpd where
  F : Option String
deriving DecidableEq

/-- One entry of the task's declared-DLV ordering table `dlvs`: its
attribute `A` (the DDI / DPD key). -/
structure DlvDecl where
  A : String
deriving DecidableEq

/-- The read-only context threaded through `cython_read_dlvs`. -/
structure DlvCtx where
  dpd_ids : List (String × Dpd)
  dvps : List (String × Dvp)
  dlvs : List DlvDecl
  dlv_idx : List (String × ℤ)
  nr_static : ℤ
deriving DecidableEq

/-- The mutable state of `cython_read_dlvs`: binary cursor, the row being
filled, the unit row, and a count of warnings issued by the caught
assignment-failure handler. -/
structure DlvState where
  read_point : ℤ
  data_row : List (Option ℚ)
  unit_row : List (Option String)
  warnings : ℕ
deriving DecidableEq

/-- Python `10**d` for an `int` exponent (an exact integer for `d ≥ 0`, a
float — idealised as the exact rational — for `d < 0`). -/
def pow10 (d : ℤ) : ℚ :=
  if 0 ≤ d then ((10 ^ d.toNat : ℕ) : ℚ) else 1 / ((10 ^ (-d).toNat : ℕ) : ℚ)

/-- Line 54-55 of `cython_agri_py.py`:
`decimals = 10**D; int((dlv + B) * C * decimals + 0.5) / decimals`. -/
def dlv_scaled (dvp : Dvp) (raw : ℤ) : ℚ :=
  let decimals : ℚ := pow10 dvp.D
  ((pytrunc (((raw : ℚ) + dvp.B) * dvp.C * decimals + 1 / 2) : ℤ) : ℚ) / decimals

/-- The caught-exception destination write (`try: data_row[idx+nr_static-1] = dlv_val`
`except: warn`): a failed write is swallowed, counted as a warning, and
processing continues. -/
def write_dest (ctx : DlvCtx) (st : DlvState) (idx : ℤ) (v : ℚ) :
    Except String DlvState :=
  match pySet st.data_row (idx + ctx.nr_static - 1) (some v) with
  | some row => .ok { st with data_row := row }
  | none => .ok { st with warnings := st.warnings + 1 }

/-- One iteration of the `cython_read_dlvs` loop for the entry
`(nr, dlv)` parsed from the binary buffer.  The cursor advances by 5 first;
`dlvs[nr]` and `dlv_idx[dpd_key]` are evaluated outside any handler, so
their failures abort; an unknown `dpd_key` is `continue`; a missing/unknown
DVP keeps the raw value; otherwise the DVP transform is applied, the unit
slot is filled from the DVP if still unset, and the destination write is
attempted under the caught handler. -/
def read_one_dlv (ctx : DlvCtx) (st : DlvState) (entry : ℕ × ℤ) :
    Except String DlvState :=
  let st := { st with read_point := st.read_point + 5 }
  match ctx.dlvs[entry.1]? with
  | none => .error "IndexError: dlvs"
  | some decl =>
    match alookup ctx.dlv_idx decl.A with
    | none => .error "KeyError: dlv_idx"
    | some idx =>
      match alookup ctx.dpd_ids decl.A with
      | none => .ok st
      | some dpd =>
        match dpd.F.bind (alookup ctx.dvps) with
        | none => write_dest ctx st idx ((entry.2 : ℚ))
        | some dvp =>
          match pyGet st.unit_row idx with
          | none => .error "IndexError: unit_row"
          | some cur =>
            let st :=
              if cur = none then
                match dvp.E with
                | some u => { st with unit_row := pySetD st.unit_row idx (some u) }
                | none => st
              else st
            write_dest ctx st idx (dlv_scaled dvp entry.2)

/-- `cython_read_dlvs` over the list of `(DLVn, PDV)` entries parsed from
the buffer (`np.frombuffer` with `count = nr_dlvs` yields exactly
`entries.length` entries). -/
def cython_read_dlvs (ctx : DlvCtx) : List (ℕ × ℤ) → DlvState →
    Except String DlvState
  | [], st => .ok st
  | e :: es, st =>
    match read_one_dlv ctx st e with
    | .error msg => .error msg
    | .ok st' => cython_read_dlvs ctx es st'

/-! ## XML task-summary DLV resolution
(`pyagri/taskdata_report.py`, `parse_taskdata_to_dataframe`, lines 154-186) -/

/-- A DVP as stored in `dvp_map` of `parse_taskdata_to_dataframe`:
`scale` = attribute `C` (default 1), `offset` = attribute `B` (default 0),
`unit` = attribute `E` (default `""`).  Note: the decimal exponent `D` is
*not* read on this path. -/
structure XmlDvp where
  scale : ℚ
  offset : ℚ
  unit : String
deriving DecidableEq

/-- A DPD entry as stored in `dpd_map`: display name and optional resolved
DVP. -/
structure XmlDpdDef where
  name : String
  dvp : Option XmlDvp
deriving DecidableEq

/-- A device entry of `dvc_info`: display name and its DDI → DPD map. -/
structure XmlDvcInfo where
  name : String
  dpds : List (String × XmlDpdDef)
deriving DecidableEq

/-- The catalog consulted when resolving one XML `DLV` entry. -/
structure XmlCtx where
  det_to_dvc : List (String × String)
  dvc_info : List (String × XmlDvcInfo)
deriving DecidableEq

/-- A resolved DLV entry: property name, physical value, unit. -/
structure Resolved where
  name : String
  value : ℚ
  unit : String
deriving DecidableEq

/-- `det_to_dvc.get(det_ref, dvc_id_for_task)`: device-element lookup with
the task's device assignment as fallback. -/
def resolved_dvc_id (ctx : XmlCtx) (dvc_id_for_task : Option String)
    (det_ref : Option String) : Option String :=
  match det_ref.bind (alookup ctx.det_to_dvc) with
  | some d => some d
  | none => dvc_id_for_task

/-- The device-metadata lookup of the XML path: resolve the device (with
fallback), require a truthy id present in `dvc_info`, and look the DDI up in
that device's DPD map. -/
def xml_dpd_lookup (ctx : XmlCtx) (dvc_id_for_task : Option String)
    (det_ref : Option String) (ddi : String) : Option XmlDpdDef :=
  match resolved_dvc_id ctx dvc_id_for_task det_ref with
  | none => none
  | some dvc_id =>
    if dvc_id = "" then none
    else
      match alookup ctx.dvc_info dvc_id with
      | none => none
      | some info => alookup info.dpds ddi

/-- Resolution of one XML `DLV` entry (lines 156-186 of
`taskdata_report.py`): hardcoded moisture / dry-matter overrides first,
then device-metadata lookup, where a found DPD with a DVP yields
`raw * scale + offset` and the DVP unit, a found DPD without DVP passes the
raw value through (with special-cased units for DDIs `0074`/`005A`), and
anything unresolved yields `"DDI <code>"`, the raw value and an empty
unit. -/
def resolve_dlv_xml (ctx : XmlCtx) (dvc_id_for_task : Option String)
    (ddi : String) (raw : ℤ) (det_ref : Option String) : Resolved :=
  if ddi = "0106" then ⟨"Fugtighed", (raw : ℚ) * (1 / 10000), "%"⟩
  else if ddi = "013B" then ⟨"Tørstofindhold", (raw : ℚ) * (1 / 10000), "%"⟩
  else
    match xml_dpd_lookup ctx dvc_id_for_task det_ref ddi with
    | none => ⟨"DDI " ++ ddi, (raw : ℚ), ""⟩
    | some dinfo =>
      match dinfo.dvp with
      | some dvp => ⟨dinfo.name, (raw : ℚ) * dvp.scale + dvp.offset, dvp.unit⟩
      | none =>
        if ddi = "0074" then ⟨dinfo.name, (raw : ℚ), "m²"⟩
        else if ddi = "005A" then ⟨dinfo.name, (raw : ℚ), "kg"⟩
        else ⟨dinfo.name, (raw : ℚ), ""⟩

/-- The value formula the specification states for a DVP-backed entry:
`round((raw + offset) * scale, decimalPlaces)`, with `round x = ⌊x + 1/2⌋`
(round-half-up) applied at `d` decimal places. -/
def spec_round_val (scale offset : ℚ) (d : ℤ) (raw : ℤ) : ℚ :=
  ((round (((raw : ℚ) + offset) * scale * (10 : ℚ) ^ d) : ℤ) : ℚ) / (10 : ℚ) ^ d

/-! ## Field geometry extraction
(`pyagri/geo.py`, `extract_unique_fields_to_geojson`, lines 78-127; the ring
algorithm is identical in `pyAgriculture/geo.py`, lines 51-82) -/

/-- A `PNT` element after attribute reading: the results of `float(c)` /
`float(d)` on its `C` (latitude) and `D` (longitude) attributes, `none`
modelling a missing attribute or a failed parse. -/
structure RawPnt where
  lat : Option ℚ
  lon : Option ℚ
deriving DecidableEq

/-- One loop iteration over a `PNT`: both coordinates must parse, and the
point is recorded as `[lon, lat]`. -/
def parse_pnt (p : RawPnt) : Option (ℚ × ℚ) :=
  match p.lat, p.lon with
  | some la, some lo => some (lo, la)
  | _, _ => none

/-- The valid points of a ring, in order (points that fail to parse are
skipped). -/
def valid_points (l : List RawPnt) : List (ℚ × ℚ) :=
  l.filterMap parse_pnt

/-- `if ring[0] != ring[-1]: ring.append(ring[0])`. -/
def close_ring (ring : List (ℚ × ℚ)) : List (ℚ × ℚ) :=
  match ring.head?, ring.getLast? with
  | some h, some t => if h = t then ring else ring ++ [h]
  | _, _ => ring

/-- One `LSG` ring: kept (auto-closed) when it has more than two valid
points, dropped otherwise. -/
def clean_ring (l : List RawPnt) : Option (List (ℚ × ℚ)) :=
  let ring := valid_points l
  if 2 < ring.length then some (close_ring ring) else none

/-- One `PLN` polygon: its surviving rings. -/
def clean_polygon (rings : List (List RawPnt)) : List (List (ℚ × ℚ)) :=
  rings.filterMap clean_ring

/-- All polygons of a field that kept at least one ring
(`if polygon_rings: polygons.append(polygon_rings)`). -/
def clean_field_polys (polys : List (List (List RawPnt))) :
    List (List (List (ℚ × ℚ))) :=
  polys.filterMap (fun p =>
    match clean_polygon p with
    | [] => none
    | pr => some pr)

/-- An emitted GeoJSON geometry. -/
inductive Geom where
  | polygon (coords : List (List (ℚ × ℚ)))
  | multiPolygon (coords : List (List (List (ℚ × ℚ))))
deriving DecidableEq

/-- Lines 114-118: one surviving polygon gives a `Polygon`, several give a
`MultiPolygon`, none means the field is not stored at all. -/
def field_geom (polys : List (List (List RawPnt))) : Option Geom :=
  match clean_field_polys polys with
  | [] => none
  | [p] => some (.polygon p)
  | ps => some (.multiPolygon ps)

/-- All rings of an emitted geometry. -/
def geom_rings : Geom → List (List (ℚ × ℚ))
  | .polygon p => p
  | .multiPolygon ps => ps.flatten

/-! ## Composite-key field/task merging
(`pyagri/geo.py`, `extract_unique_fields_to_geojson`, lines 49-250) -/

/-- The composite identifier `f"{folder_name}/{local_id}"`. -/
def composite_key (folder local_id : String) : String :=
  folder ++ "/" ++ local_id

/-- A `PFD` element of one source, before geometry extraction. -/
structure RawField where
  pfd_id : String
  name : String
  polys : List (List (List RawPnt))
deriving DecidableEq

/-- The value stored in `fields_by_composite_id`. -/
structure FieldRec where
  name : String
  geom : Geom
  folder : String
  pfd_id : String
deriving DecidableEq

/-- Lines 82-127 for one `PFD`: fields whose geometry survives are written
into the composite-keyed dict (modelled as an append; `dlookup` recovers the
dict's last-write-wins reading); fields with no geometry are not stored. -/
def collect_field_step (folder : String) (m : List (String × FieldRec))
    (f : RawField) : List (String × FieldRec) :=
  match field_geom f.polys with
  | none => m
  | some g =>
    m ++ [(composite_key folder f.pfd_id, ⟨f.name, g, folder, f.pfd_id⟩)]

/-- All field writes of one source folder. -/
def collect_fields (m : List (String × FieldRec)) (folder : String)
    (fs : List RawField) : List (String × FieldRec) :=
  fs.foldl (collect_field_step folder) m

/-- A `TSK` element of one source after its children have been read:
task id (attribute `A`), field reference (attribute `E`), the year parsed
from the first `TIM` child's start attribute (`none` when the `TIM` or the
attribute is missing or `datetime.fromisoformat` fails), and the crop name
resolved through the product catalog. -/
structure RawTask where
  tsk_id : Option String
  field_ref : Option String
  year : Option ℤ
  crop : String
deriving DecidableEq

/-- One recorded task: the entry appended to
`tasks_by_composite_id[composite_field_ref][year]`. -/
structure TaskEntry where
  cid : String
  year : Option ℤ
  tsk_id : Option String
  crop : String
deriving DecidableEq

/-- Lines 130-187 for one `TSK`: a task with a falsy field reference is
dropped; otherwise it is appended under its field's composite key, with the
bucket `none` standing for the explicit `'unknown'` year bucket. -/
def collect_task_step (folder : String) (acc : List TaskEntry) (t : RawTask) :
    List TaskEntry :=
  match t.field_ref with
  | none => acc
  | some fr =>
    if fr = "" then acc
    else acc ++ [⟨composite_key folder fr, t.year, t.tsk_id, t.crop⟩]

/-- All task writes of one source folder. -/
def collect_tasks (acc : List TaskEntry) (folder : String)
    (ts : List RawTask) : List TaskEntry :=
  ts.foldl (collect_task_step folder) acc

/-- The keys of an association list in first-insertion order (a Python
dict's iteration order). -/
def first_keys {κ α : Type} [DecidableEq κ] : List (κ × α) → List κ
  | [] => []
  | (k, _) :: rest => k :: (first_keys rest).filter (fun k' => ¬ k' = k)

/-- One year bucket of a feature's `TaskYears` summary (`year = none` is
the `'unknown'` bucket emitted with `Year: None`). -/
structure YearBucket where
  year : Option ℤ
  count : ℕ
  task_ids : List (Option String)
  crops : List String
deriving DecidableEq

/-- One emitted GeoJSON feature (the properties the claims are about). -/
structure Feature where
  composite_id : String
  field : FieldRec
  buckets : List YearBucket
  total : ℕ
deriving DecidableEq

/-- The bucket for year `y` of field `cid` (lines 196-218): count, task ids
in order, and crop names (`list(set(...))` modelled as `dedup`). -/
def mk_bucket (tl : List TaskEntry) (cid : String) (y : Option ℤ) : YearBucket :=
  let es := tl.filter (fun e => e.cid = cid ∧ e.year = y)
  ⟨y, es.length, es.map (fun e => e.tsk_id), (es.map (fun e => e.crop)).dedup⟩

/-- Lines 193-218: the known-year buckets in ascending year order, then the
`'unknown'` bucket if present. -/
def mk_buckets (tl : List TaskEntry) (cid : String) : List YearBucket :=
  let es := tl.filter (fun e => e.cid = cid)
  let knowns := ((es.filterMap (fun e => e.year)).dedup).mergeSort (fun a b => a ≤ b)
  (knowns.map (fun y => mk_bucket tl cid (some y))) ++
    (if es.any (fun e => e.year = none) then [mk_bucket tl cid none] else [])

/-- Lines 189-240: one feature per entry of `fields_by_composite_id`
(first-insertion key order, last write wins), carrying the per-year task
summary and the total task count of that composite field. -/
def build_features (fields : List (String × FieldRec)) (tl : List TaskEntry) :
    List Feature :=
  (first_keys fields).filterMap (fun cid =>
    (dlookup fields cid).map (fun rec =>
      ⟨cid, rec, mk_buckets tl cid, (tl.filter (fun e => e.cid = cid)).length⟩))

/-- One TaskData source: its folder tag, its `PFD` elements and its `TSK`
elements. -/
structure Source where
  tag : String
  fields : List RawField
  tasks : List RawTask
deriving DecidableEq

/-- The accumulated field dict (`fields_by_composite_id`) over all
sources. -/
def merged_fields (sources : List Source) : List (String × FieldRec) :=
  sources.foldl (fun m s => collect_fields m s.tag s.fields) []

/-- The accumulated task dict (`tasks_by_composite_id`) over all sources,
as the ordered list of its appends. -/
def merged_tasks (sources : List Source) : List TaskEntry :=
  sources.foldl (fun a s => collect_tasks a s.tag s.tasks) []

/-- `extract_unique_fields_to_geojson` over already-parsed sources: the
field and task dicts are accumulated across all sources, then the feature
list is built. -/
def extract_unique_fields (sources : List Source) : List Feature :=
  build_features (merged_fields sources) (merged_tasks sources)

/-! ## The `Farm` column
(`pyagri/taskdata_report.py`, lines 82 and 204) -/

/-- A `FRM` element: its `A` (id) and `B` (display name) attributes. -/
structure FrmElem where
  A : Option String
  B : Option String
deriving DecidableEq

/-- `frm.attrib.get('B', 'Unknown Farm')`. -/
def farm_display_name (fr : FrmElem) : String := fr.B.getD "Unknown Farm"

/-- Line 82: the dict comprehension
`{frm.attrib.get('A'): frm.attrib.get('B', 'Unknown Farm') for frm in root.findall('FRM')}`
(duplicate ids keep the first position but take the newest value). -/
def build_farms (l : List FrmElem) : List (Option String × String) :=
  l.foldl (fun m fr => dictInsert m fr.A (farm_display_name fr)) []

/-- Line 204: `list(farms.values())[0] if farms else "Unknown Farm"`. -/
def farm_column (l : List FrmElem) : String :=
  match (build_farms l).head? with
  | some p => p.2
  | none => "Unknown Farm"

/-- The corrected description of the `Farm` column: the display name of the
*last* `FRM` element whose id equals the *first* `FRM` element's id (these
coincide with the first element's own name exactly when no later `FRM`
reuses that id), and `"Unknown Farm"` for a document with no farms. -/
def farm_column_specified (l : List FrmElem) : String :=
  match l with
  | [] => "Unknown Farm"
  | fr :: _ =>
    match (l.filter (fun g => g.A = fr.A)).getLast? with
    | some g => farm_display_name g
    | none => farm_display_name fr

/-! ## Helper lemmas -/

theorem pytrunc_eq_floor {q : ℚ} (h : 0 ≤ q) : pytrunc q = ⌊q⌋ := by
  unfold pytrunc
  rw [Int.tdiv_eq_ediv (Rat.num_nonneg.mpr h) (Int.natCast_nonneg _), Rat.floor_def]

theorem write_dest_read_point {ctx : DlvCtx} {st : DlvState} {idx : ℤ} {v : ℚ}
    {st' : DlvState} (h : write_dest ctx st idx v = .ok st') :
    st'.read_point = st.read_point := by
  unfold write_dest at h
  rcases hp : pySet st.data_row (idx + ctx.nr_static - 1) (some v) with _ | row <;>
    rw [hp] at h <;> cases h <;> rfl

theorem read_one_dlv_read_point {ctx : DlvCtx} {st : DlvState} {e : ℕ × ℤ}
    {st' : DlvState} (h : read_one_dlv ctx st e = .ok st') :
    st'.read_point = st.read_point + 5 := by
  unfold read_one_dlv at h
  dsimp only at h
  rcases h1 : ctx.dlvs[e.1]? with _ | decl <;> simp only [h1] at h
  · cases h
  · rcases h2 : alookup ctx.dlv_idx decl.A with _ | idx <;> simp only [h2] at h
    · cases h
    · rcases h3 : alookup ctx.dpd_ids decl.A with _ | dpd <;> simp only [h3] at h
      · injection h with h
        rw [← h]
      · rcases h4 : dpd.F.bind (alookup ctx.dvps) with _ | dvp <;>
          simp only [h4] at h
        · simpa using write_dest_read_point h
        · rcases h5 : pyGet st.unit_row idx with _ | cur <;> simp only [h5] at h
          · cases h
          · have hw := write_dest_read_point h
            rw [hw]
            rcases cur with _ | u2
            · rcases h6 : dvp.E with _ | u <;> simp [h6]
            · simp

/-- C9: for every call of `cython_read_dlvs` that returns (rather than
raising), the returned `read_point` equals the incoming `read_point` plus
5 bytes per variable-length entry in the buffer, independently of how each
entry resolved. -/
theorem c9_cursor_advance (ctx : DlvCtx) :
    ∀ (entries : List (ℕ × ℤ)) (st st' : DlvState),
      cython_read_dlvs ctx entries st = .ok st' →
      st'.read_point = st.read_point + 5 * entries.length := by
  intro entries
  induction entries with
  | nil =>
    intro st st' h
    cases h
    simp
  | cons e es ih =>
    intro st st' h
    unfold cython_read_dlvs at h
    rcases h1 : read_one_dlv ctx st e with _ | st1 <;> rw [h1] at h
    · exact absurd h (by simp)
    · have h2 := ih st1 st' h
      have h3 := read_one_dlv_read_point h1
      rw [h2, h3]
      simp [List.length_cons]
      ring

/-- Witness for C9 at a concrete input: one entry, resolved raw, cursor
advances from 0 to 5. -/
theorem c9_cursor_advance_witness :
    (⟨5, [none, some 42], [none], 0⟩ : DlvState).read_point =
      (⟨0, [none, none], [none], 0⟩ : DlvState).read_point + 5 * [((0 : ℕ), (42 : ℤ))].length :=
  c9_cursor_advance ⟨[("X", ⟨none⟩)], [], [⟨"X"⟩], [("X", 1)], 1⟩
    [(0, 42)] ⟨0, [none, none], [none], 0⟩ ⟨5, [none, some 42], [none], 0⟩ (by rfl)

deriving instance DecidableEq for Except

/-- C2 (amended): on the XML task-summary path the moisture DDI `0106`
and the dry-matter DDI `013B` resolve to the fixed names
`Fugtighed` / `Tørstofindhold`, unit `%` and value `raw * 0.0001`,
regardless of the device catalog (in particular raw 12345 gives 1.2345);
the binary decode path carries no such override (see the
counterexample). -/
theorem c2_xml_moisture_override (ctx : XmlCtx) (task det : Option String)
    (raw : ℤ) :
    resolve_dlv_xml ctx task "0106" raw det =
      ⟨"Fugtighed", (raw : ℚ) * (1 / 10000), "%"⟩ ∧
    resolve_dlv_xml ctx task "013B" raw det =
      ⟨"Tørstofindhold", (raw : ℚ) * (1 / 10000), "%"⟩ ∧
    (resolve_dlv_xml ctx task "0106" 12345 det).value = 12345 / 10000 := by
  refine ⟨by simp [resolve_dlv_xml], by simp [resolve_dlv_xml], ?_⟩
  simp [resolve_dlv_xml]
  norm_num

/-- Counterexample to C2 as stated: on the binary decode path
(`cython_read_dlvs`) a DLV entry with the moisture DDI `0106`, whose
owning device declares a DVP with scale 1, offset 0 and unit `"mg"`,
decodes to value 12345 and unit `"mg"` — the device's DVP is applied, not
the claimed fixed 0.0001 scale, name and `%` unit. -/
theorem c2_binary_no_override_counterexample :
    cython_read_dlvs
        ⟨[("0106", ⟨some "DVP1"⟩)], [("DVP1", ⟨0, 1, 0, some "mg"⟩)],
          [⟨"0106"⟩], [("0106", 1)], 1⟩
        [(0, 12345)] ⟨0, [none, none], [none, none], 0⟩ =
      .ok ⟨5, [none, some 12345], [none, some "mg"], 0⟩ ∧
    (12345 : ℚ) ≠ 12345 * (1 / 10000) ∧ ("mg" : String) ≠ "%" := by
  have hv : dlv_scaled ⟨0, 1, 0, some "mg"⟩ 12345 = 12345 := by
    show ((pytrunc (((12345 : ℚ) + 0) * 1 * pow10 0 + 1 / 2) : ℤ) : ℚ) / pow10 0 = 12345
    rw [pytrunc_eq_floor (by norm_num [pow10])]
    norm_num [pow10]
  refine ⟨?_, by norm_num, by decide⟩
  simp [cython_read_dlvs, read_one_dlv, write_dest, alookup, pyGet, pySet, pySetD, hv]

/-- C3 (amended): an unresolved DDI never fails resolution, but the two
paths differ.  On the XML task-summary path a non-override DDI that is not
found under the resolved device yields the generic name `"DDI <code>"`, the
raw integer value and an empty unit.  On the binary decode path
(`cython_read_dlvs`) such an entry is skipped entirely — the row is left
unchanged, no raw value is kept — while decoding continues with the cursor
advanced. -/
theorem c3_unresolved_ddi (ctx : XmlCtx) (task det : Option String)
    (ddi : String) (raw : ℤ) (bctx : DlvCtx) (st : DlvState) (nr : ℕ)
    (braw : ℤ) (decl : DlvDecl) (idx : ℤ) (es : List (ℕ × ℤ))
    (h1 : ddi ≠ "0106") (h2 : ddi ≠ "013B")
    (h3 : xml_dpd_lookup ctx task det ddi = none)
    (h4 : bctx.dlvs[nr]? = some decl)
    (h5 : alookup bctx.dlv_idx decl.A = some idx)
    (h6 : alookup bctx.dpd_ids decl.A = none) :
    resolve_dlv_xml ctx task ddi raw det = ⟨"DDI " ++ ddi, (raw : ℚ), ""⟩ ∧
    cython_read_dlvs bctx ((nr, braw) :: es) st =
      cython_read_dlvs bctx es { st with read_point := st.read_point + 5 } := by
  constructor
  · simp [resolve_dlv_xml, h1, h2, h3]
  · have hstep : read_one_dlv bctx st (nr, braw) =
        .ok { st with read_point := st.read_point + 5 } := by
      unfold read_one_dlv
      simp [h4, h5, h6]
    show (match read_one_dlv bctx st (nr, braw) with
      | .error msg => Except.error msg
      | .ok st' => cython_read_dlvs bctx es st') = _
    rw [hstep]

/-- Witness for C3 at concrete inputs: DDI `9999` under an empty catalog on
the XML path; an undeclared DPD key on the binary path. -/
theorem c3_unresolved_ddi_witness :
    resolve_dlv_xml ⟨[], []⟩ none "9999" 42 none = ⟨"DDI 9999", (42 : ℚ), ""⟩ ∧
    cython_read_dlvs ⟨[], [], [⟨"0107"⟩], [("0107", 0)], 1⟩ [((0 : ℕ), (7 : ℤ))]
        ⟨0, [none], [none], 0⟩ =
      cython_read_dlvs ⟨[], [], [⟨"0107"⟩], [("0107", 0)], 1⟩ []
        ⟨0 + 5, [none], [none], 0⟩ :=
  c3_unresolved_ddi ⟨[], []⟩ none none "9999" 42
    ⟨[], [], [⟨"0107"⟩], [("0107", 0)], 1⟩ ⟨0, [none], [none], 0⟩ 0 7 ⟨"0107"⟩ 0 []
    (by decide) (by decide) (by rfl) (by rfl) (by rfl) (by rfl)

/-- Counterexample to C3 as stated: on the binary decode path a DLV entry
whose DDI (`0106` here, with no DPD declared for it) is not found in
`dpd_ids` is dropped — the data row is returned unchanged (`[none]`), the
raw value 7 is kept nowhere — contradicting the claim that on every decode
path the raw value is passed through. -/
theorem c3_binary_drop_counterexample :
    cython_read_dlvs ⟨[], [], [⟨"0106"⟩], [("0106", 0)], 1⟩ [((0 : ℕ), (7 : ℤ))]
        ⟨0, [none], [none], 0⟩ =
      .ok ⟨5, [none], [none], 0⟩ ∧
    ¬ some (7 : ℚ) ∈ [(none : Option ℚ)] := by
  constructor
  · simp [cython_read_dlvs, read_one_dlv, alookup]
  · simp

/-- C4 (amended): during binary DLV decoding, a resolved entry whose
destination write fails (index outside the data row) is skipped with a
warning recorded and decoding of the remaining entries continues; but an
entry whose declared index `nr` lies outside the task's declared DLV table
raises an uncaught `IndexError` that aborts decoding of the file. -/
theorem c4_corrupt_field_policy :
    (∀ (ctx : DlvCtx) (st : DlvState) (nr : ℕ) (raw : ℤ) (decl : DlvDecl)
        (idx : ℤ) (es : List (ℕ × ℤ)),
      ctx.dlvs[nr]? = some decl →
      alookup ctx.dlv_idx decl.A = some idx →
      alookup ctx.dpd_ids decl.A = some ⟨none⟩ →
      pySet st.data_row (idx + ctx.nr_static - 1) (some (raw : ℚ)) = none →
      cython_read_dlvs ctx ((nr, raw) :: es) st =
        cython_read_dlvs ctx es
          { st with read_point := st.read_point + 5,
                    warnings := st.warnings + 1 }) ∧
    (∀ (ctx : DlvCtx) (st : DlvState) (nr : ℕ) (raw : ℤ) (es : List (ℕ × ℤ)),
      ctx.dlvs[nr]? = none →
      cython_read_dlvs ctx ((nr, raw) :: es) st = .error "IndexError: dlvs") := by
  constructor
  · intro ctx st nr raw decl idx es h1 h2 h3 h4
    have hstep : read_one_dlv ctx st (nr, raw) =
        .ok { st with read_point := st.read_point + 5,
                      warnings := st.warnings + 1 } := by
      unfold read_one_dlv
      simp [h1, h2, h3, write_dest, h4]
    show (match read_one_dlv ctx st (nr, raw) with
      | .error msg => Except.error msg
      | .ok st' => cython_read_dlvs ctx es st') = _
    rw [hstep]
  · intro ctx st nr raw es h1
    have hstep : read_one_dlv ctx st (nr, raw) = .error "IndexError: dlvs" := by
      unfold read_one_dlv
      simp [h1]
    show (match read_one_dlv ctx st (nr, raw) with
      | .error msg => Except.error msg
      | .ok st' => cython_read_dlvs ctx es st') = _
    rw [hstep]

/-- Witness for C4 at concrete inputs: a declared index whose destination
column 5 lies outside a 1-slot data row is skipped with one warning; an
entry whose `DLVn` byte is 0 against an empty declared table aborts. -/
theorem c4_corrupt_field_policy_witness :
    cython_read_dlvs ⟨[("X", ⟨none⟩)], [], [⟨"X"⟩], [("X", 5)], 1⟩
        [((0 : ℕ), (9 : ℤ))] ⟨0, [none], [none], 0⟩ =
      cython_read_dlvs ⟨[("X", ⟨none⟩)], [], [⟨"X"⟩], [("X", 5)], 1⟩ []
        ⟨0 + 5, [none], [none], 0 + 1⟩ ∧
    cython_read_dlvs ⟨[], [], [], [], 0⟩ [((0 : ℕ), (1 : ℤ))]
        ⟨0, [], [], 0⟩ = .error "IndexError: dlvs" :=
  ⟨c4_corrupt_field_policy.1 ⟨[("X", ⟨none⟩)], [], [⟨"X"⟩], [("X", 5)], 1⟩
      ⟨0, [none], [none], 0⟩ 0 9 ⟨"X"⟩ 5 [] (by rfl) (by rfl) (by rfl) (by rfl),
    c4_corrupt_field_policy.2 ⟨[], [], [], [], 0⟩ ⟨0, [], [], 0⟩ 0 1 [] (by rfl)⟩

/-- Counterexample to C4 as stated: a single variable-length entry whose
declared index (3) is outside the task's declared table (length 1) aborts
the whole decode with an uncaught error — it is not skipped with a warning
and decoding does not continue. -/
theorem c4_abort_counterexample :
    cython_read_dlvs ⟨[], [], [⟨"X"⟩], [("X", 0)], 1⟩ [((3 : ℕ), (7 : ℤ))]
        ⟨0, [none], [none], 0⟩ = .error "IndexError: dlvs" ∧
    (Except.error "IndexError: dlvs" : Except String DlvState) ≠
      .ok ⟨5, [none], [none], 1⟩ := by
  constructor
  · simp [cython_read_dlvs, read_one_dlv]
  · simp

theorem pow10_eq_zpow (d : ℤ) : pow10 d = (10 : ℚ) ^ d := by
  unfold pow10
  rcases le_or_lt 0 d with h | h
  · rw [if_pos h]
    conv_rhs => rw [← Int.toNat_of_nonneg h]
    rw [zpow_natCast]
    push_cast
    ring
  · rw [if_neg (not_le.mpr h)]
    have h2 : d = -((-d).toNat : ℤ) := by omega
    conv_rhs => rw [h2]
    rw [zpow_neg, zpow_natCast, one_div]
    push_cast
    ring

/-- C1 (amended): for a DLV entry whose DDI resolves to a DPD referencing a
DVP, (i) the binary value transform equals
`round((raw + offset) * scale, decimalPlaces)` (half-up) whenever
`(raw + offset) * scale` is nonnegative (the Python code truncates toward
zero, so negative values can round differently), (ii) the binary decode
path writes exactly that transform into the destination column and takes
the unit from the DVP, and (iii) the XML task-summary path instead computes
`raw * scale + offset` — offset applied after scaling, with no decimal
rounding — with the unit taken from the DVP. -/
theorem c1_dvp_resolution :
    (∀ (dvp : Dvp) (raw : ℤ), 0 ≤ ((raw : ℚ) + dvp.B) * dvp.C →
      dlv_scaled dvp raw = spec_round_val dvp.C dvp.B dvp.D raw) ∧
    (∀ (ctx : DlvCtx) (st : DlvState) (nr : ℕ) (raw : ℤ) (decl : DlvDecl)
        (idx : ℤ) (k : String) (dvp : Dvp) (u : String) (row : List (Option ℚ)),
      ctx.dlvs[nr]? = some decl →
      alookup ctx.dlv_idx decl.A = some idx →
      alookup ctx.dpd_ids decl.A = some ⟨some k⟩ →
      alookup ctx.dvps k = some dvp →
      pyGet st.unit_row idx = some none →
      dvp.E = some u →
      pySet st.data_row (idx + ctx.nr_static - 1) (some (dlv_scaled dvp raw)) =
        some row →
      read_one_dlv ctx st (nr, raw) =
        .ok ⟨st.read_point + 5, row, pySetD st.unit_row idx (some u),
             st.warnings⟩) ∧
    (∀ (ctx : XmlCtx) (task det : Option String) (ddi : String) (raw : ℤ)
        (dinfo : XmlDpdDef) (dvp : XmlDvp),
      ddi ≠ "0106" → ddi ≠ "013B" →
      xml_dpd_lookup ctx task det ddi = some dinfo →
      dinfo.dvp = some dvp →
      resolve_dlv_xml ctx task ddi raw det =
        ⟨dinfo.name, (raw : ℚ) * dvp.scale + dvp.offset, dvp.unit⟩) := by
  refine ⟨?_, ?_, ?_⟩
  · intro dvp raw h
    have hpow : (0 : ℚ) < (10 : ℚ) ^ dvp.D := zpow_pos (by norm_num) _
    have hx : 0 ≤ ((raw : ℚ) + dvp.B) * dvp.C * (10 : ℚ) ^ dvp.D :=
      mul_nonneg h hpow.le
    show ((pytrunc (((raw : ℚ) + dvp.B) * dvp.C * pow10 dvp.D + 1 / 2) : ℤ) : ℚ) /
        pow10 dvp.D = spec_round_val dvp.C dvp.B dvp.D raw
    unfold spec_round_val
    rw [pow10_eq_zpow, pytrunc_eq_floor (by linarith), round_eq]
  · intro ctx st nr raw decl idx k dvp u row h1 h2 h3 h4 h5 h6 h7
    unfold read_one_dlv
    simp [h1, h2, h3, h4, h5, h6, write_dest, h7]
  · intro ctx task det ddi raw dinfo dvp h1 h2 h3 h4
    simp [resolve_dlv_xml, h1, h2, h3, h4]

/-- Witness for C1 at concrete inputs: a DVP with offset 1, scale 2 and one
decimal place on raw 3; a concrete binary decode writing the scaled value
and the DVP unit; a concrete XML resolution applying scale then offset. -/
theorem c1_dvp_resolution_witness :
    dlv_scaled ⟨1, 2, 1, none⟩ 3 = spec_round_val 2 1 1 3 ∧
    read_one_dlv ⟨[("X", ⟨some "V"⟩)], [("V", ⟨0, 1, 0, some "kg"⟩)], [⟨"X"⟩],
        [("X", 1)], 1⟩ ⟨0, [none, none], [none, none], 0⟩ (0, 7) =
      .ok ⟨0 + 5, [none, some (dlv_scaled ⟨0, 1, 0, some "kg"⟩ 7)],
           pySetD [none, none] 1 (some "kg"), 0⟩ ∧
    resolve_dlv_xml ⟨[], [("D2", ⟨"M2", [("0002", ⟨"P2", some ⟨3, 5, "t"⟩⟩)]⟩)]⟩
        (some "D2") "0002" 4 none = ⟨"P2", (4 : ℚ) * 3 + 5, "t"⟩ :=
  ⟨c1_dvp_resolution.1 ⟨1, 2, 1, none⟩ 3 (by norm_num),
    c1_dvp_resolution.2.1 ⟨[("X", ⟨some "V"⟩)], [("V", ⟨0, 1, 0, some "kg"⟩)],
        [⟨"X"⟩], [("X", 1)], 1⟩ ⟨0, [none, none], [none, none], 0⟩ 0 7 ⟨"X"⟩ 1
        "V" ⟨0, 1, 0, some "kg"⟩ "kg" [none, some (dlv_scaled ⟨0, 1, 0, some "kg"⟩ 7)]
        (by rfl) (by rfl) (by rfl) (by rfl) (by rfl) (by rfl) (by rfl),
    c1_dvp_resolution.2.2 ⟨[], [("D2", ⟨"M2", [("0002", ⟨"P2", some ⟨3, 5, "t"⟩⟩)]⟩)]⟩
        (some "D2") none "0002" 4 ⟨"P2", some ⟨3, 5, "t"⟩⟩ ⟨3, 5, "t"⟩
        (by decide) (by decide) (by rfl) (by rfl)⟩

/-- Counterexample to C1 as stated: on the XML task-summary path a DVP with
scale 2, offset 1 (no decimal places) on raw value 1 yields
`1 * 2 + 1 = 3`, while the claimed formula `round((raw + offset) * scale)`
gives `round((1 + 1) * 2) = 4` — the two resolution paths do not share the
claimed formula. -/
theorem c1_xml_formula_counterexample :
    (resolve_dlv_xml ⟨[], [("D1", ⟨"M", [("0001", ⟨"Prop", some ⟨2, 1, "u"⟩⟩)]⟩)]⟩
        (some "D1") "0001" 1 none).value = 3 ∧
    spec_round_val 2 1 0 1 = 4 ∧ (3 : ℚ) ≠ 4 := by
  refine ⟨?_, ?_, by norm_num⟩
  · simp [resolve_dlv_xml, xml_dpd_lookup, resolved_dvc_id, alookup]
    norm_num
  · unfold spec_round_val
    rw [round_eq]
    norm_num

theorem close_ring_ne_nil {ring : List (ℚ × ℚ)} (h : ring ≠ []) :
    close_ring ring ≠ [] := by
  rcases ring with _ | ⟨a, t⟩
  · exact absurd rfl h
  · unfold close_ring
    rcases hl : (a :: t).getLast? with _ | b
    · simp
    · simp only [List.head?_cons]
      split <;> simp

theorem close_ring_closed {ring : List (ℚ × ℚ)} (h : ring ≠ []) :
    (close_ring ring).head? = (close_ring ring).getLast? := by
  rcases ring with _ | ⟨a, t⟩
  · exact absurd rfl h
  · have hl : ∃ b, (a :: t).getLast? = some b := by
      rcases t with _ | ⟨c, t2⟩
      · exact ⟨a, rfl⟩
      · exact ⟨(c :: t2).getLast (by simp), by rw [List.getLast?_cons_cons]; exact List.getLast?_eq_getLast _ _⟩
    rcases hl with ⟨b, hb⟩
    unfold close_ring
    rw [hb]
    simp only [List.head?_cons]
    split
    · rename_i hab
      simp only [List.head?_cons, hb]
      rw [hab]
    · simp only [List.cons_append, List.head?_cons]
      rw [show a :: (t ++ [a]) = (a :: t) ++ [a] from rfl]
      exact (List.getLast?_concat _).symm

theorem clean_ring_some {l : List RawPnt} {r : List (ℚ × ℚ)}
    (h : clean_ring l = some r) :
    r = close_ring (valid_points l) ∧ 2 < (valid_points l).length := by
  unfold clean_ring at h
  dsimp only at h
  split at h
  · rename_i hlen
    exact ⟨(Option.some.injEq _ _ ▸ h).symm, hlen⟩
  · cases h

theorem mem_clean_field_polys {polys : List (List (List RawPnt))}
    {pr : List (List (ℚ × ℚ))} (h : pr ∈ clean_field_polys polys) :
    ∃ p ∈ polys, clean_polygon p = pr := by
  unfold clean_field_polys at h
  rcases List.mem_filterMap.mp h with ⟨p, hp, hsome⟩
  refine ⟨p, hp, ?_⟩
  rcases hc : clean_polygon p with _ | ⟨q, qs⟩ <;> rw [hc] at hsome
  · cases hsome
  · exact Option.some.injEq _ _ ▸ hsome

theorem geom_rings_sub {polys : List (List (List RawPnt))} {g : Geom}
    {ring : List (ℚ × ℚ)} (hg : field_geom polys = some g)
    (hr : ring ∈ geom_rings g) :
    ∃ l, clean_ring l = some ring := by
  unfold field_geom at hg
  have hpr : ∃ pr ∈ clean_field_polys polys, ring ∈ pr := by
    rcases hc : clean_field_polys polys with _ | ⟨p, _ | ⟨q, rest⟩⟩ <;>
      rw [hc] at hg
    · cases hg
    · cases hg
      exact ⟨p, by simp, hr⟩
    · cases hg
      rcases List.mem_flatten.mp hr with ⟨pr, h1, h2⟩
      exact ⟨pr, h1, h2⟩
  rcases hpr with ⟨pr, hmem, hring⟩
  rcases mem_clean_field_polys hmem with ⟨p, _, hclean⟩
  rcases List.mem_filterMap.mp (hclean ▸ hring) with ⟨l, _, hsome⟩
  exact ⟨l, hsome⟩

/-- C5: every ring of an emitted geometry is closed — its first and last
coordinate pairs are identical — and a surviving ring whose valid points
already begin and end with the same point is emitted unchanged (the first
point is appended only when the ring is open). -/
theorem c5_ring_closure :
    (∀ (polys : List (List (List RawPnt))) (g : Geom) (ring : List (ℚ × ℚ)),
      field_geom polys = some g → ring ∈ geom_rings g →
      ring ≠ [] ∧ ring.head? = ring.getLast?) ∧
    (∀ (l : List RawPnt) (r : List (ℚ × ℚ)),
      clean_ring l = some r →
      (valid_points l).head? = (valid_points l).getLast? →
      r = valid_points l) := by
  constructor
  · intro polys g ring hg hr
    rcases geom_rings_sub hg hr with ⟨l, hl⟩
    rcases clean_ring_some hl with ⟨hcr, hlen⟩
    have hne : valid_points l ≠ [] := by
      intro hnil
      rw [hnil] at hlen
      simp at hlen
    exact ⟨hcr ▸ close_ring_ne_nil hne, hcr ▸ close_ring_closed hne⟩
  · intro l r h hclosed
    rcases clean_ring_some h with ⟨hcr, hlen⟩
    rcases hv : valid_points l with _ | ⟨a, t⟩
    · rw [hv] at hlen
      simp at hlen
    · rw [hv] at hclosed hcr
      rcases hl : (a :: t).getLast? with _ | b
      · simp at hl
      · rw [hl, List.head?_cons] at hclosed
        cases hclosed
        rw [hcr]
        unfold close_ring
        rw [hl]
        simp

/-- Witness for C5 at concrete inputs: an open triangle is closed by
appending its first point; a coincidentally-closed 3-point ring is emitted
unchanged. -/
theorem c5_ring_closure_witness :
    (([(12, 55), (13, 56), (12, 57), (12, 55)] : List (ℚ × ℚ)) ≠ [] ∧
      ([(12, 55), (13, 56), (12, 57), (12, 55)] : List (ℚ × ℚ)).head? =
        ([(12, 55), (13, 56), (12, 57), (12, 55)] : List (ℚ × ℚ)).getLast?) ∧
    ([((0 : ℚ), (0 : ℚ)), (1, 1), (0, 0)] : List (ℚ × ℚ)) =
      valid_points [⟨some 0, some 0⟩, ⟨some 1, some 1⟩, ⟨some 0, some 0⟩] :=
  ⟨c5_ring_closure.1 [[[⟨some 55, some 12⟩, ⟨some 56, some 13⟩, ⟨some 57, some 12⟩]]]
      (.polygon [[(12, 55), (13, 56), (12, 57), (12, 55)]])
      [(12, 55), (13, 56), (12, 57), (12, 55)] (by rfl) (by simp [geom_rings]),
    c5_ring_closure.2 [⟨some 0, some 0⟩, ⟨some 1, some 1⟩, ⟨some 0, some 0⟩]
      [(0, 0), (1, 1), (0, 0)] (by rfl) (by rfl)⟩

/-- C6 (amended): every ring kept in the output has at least 3 valid
(parseable) points — not necessarily distinct — before closing; a ring with
2 or fewer valid points is silently dropped; and a field whose polygons all
lose every ring contributes no entry to the composite-keyed field index, so
it is never emitted with an empty geometry. -/
theorem c6_ring_survival_threshold :
    (∀ (l : List RawPnt) (r : List (ℚ × ℚ)), clean_ring l = some r →
      3 ≤ (valid_points l).length) ∧
    (∀ l : List RawPnt, (valid_points l).length ≤ 2 → clean_ring l = none) ∧
    (∀ polys : List (List (List RawPnt)), clean_field_polys polys = [] →
      field_geom polys = none) ∧
    (∀ (m : List (String × FieldRec)) (folder : String) (f : RawField),
      field_geom f.polys = none → collect_field_step folder m f = m) := by
  refine ⟨?_, ?_, ?_, ?_⟩
  · intro l r h
    exact (clean_ring_some h).2
  · intro l h
    unfold clean_ring
    dsimp only
    rw [if_neg (by omega)]
  · intro polys h
    unfold field_geom
    rw [h]
  · intro m folder f h
    unfold collect_field_step
    rw [h]

/-- Witness for C6 at concrete inputs: a surviving triangle has 3 valid
points; a 2-point ring is dropped; a field whose only polygon lost every
ring gets no geometry and adds nothing to the field index. -/
theorem c6_ring_survival_threshold_witness :
    3 ≤ (valid_points [⟨some 0, some 0⟩, ⟨some 1, some 0⟩, ⟨some 0, some 1⟩]).length ∧
    clean_ring [⟨some 0, some 0⟩, ⟨some 1, some 0⟩] = none ∧
    field_geom [[[⟨none, some 3⟩]]] = none ∧
    collect_field_step "T" [] ⟨"F9", "N9", [[[⟨none, some 3⟩]]]⟩ = [] :=
  ⟨c6_ring_survival_threshold.1 [⟨some 0, some 0⟩, ⟨some 1, some 0⟩, ⟨some 0, some 1⟩]
      [(0, 0), (0, 1), (1, 0), (0, 0)] (by rfl),
    c6_ring_survival_threshold.2.1 [⟨some 0, some 0⟩, ⟨some 1, some 0⟩] (by decide),
    c6_ring_survival_threshold.2.2.1 [[[⟨none, some 3⟩]]] (by rfl),
    c6_ring_survival_threshold.2.2.2 [] "T" ⟨"F9", "N9", [[[⟨none, some 3⟩]]]⟩ (by rfl)⟩

/-- Counterexample to C6 as stated: a ring of three *identical* valid
points `(0,0)` survives (the code only checks `len(ring) > 2`, counting
duplicates) and is emitted, yet it has exactly one distinct point — fewer
than the claimed three distinct points. -/
theorem c6_distinct_points_counterexample :
    field_geom [[[⟨some 0, some 0⟩, ⟨some 0, some 0⟩, ⟨some 0, some 0⟩]]] =
      some (.polygon [[(0, 0), (0, 0), (0, 0)]]) ∧
    (valid_points [⟨some 0, some 0⟩, ⟨some 0, some 0⟩, ⟨some 0, some 0⟩]).dedup.length = 1 ∧
    ¬ 3 ≤ 1 := by
  refine ⟨by rfl, by decide, by decide⟩

theorem slashfree_key_chars {a b x y : List Char} (ha : '/' ∉ a)
    (hb : '/' ∉ b) (h : a ++ '/' :: x = b ++ '/' :: y) : a = b ∧ x = y := by
  induction a generalizing b with
  | nil =>
    cases b with
    | nil =>
      simp only [List.nil_append, List.cons.injEq, true_and] at h
      exact ⟨rfl, h⟩
    | cons d bs =>
      simp only [List.nil_append, List.cons_append, List.cons.injEq] at h
      refine absurd ?_ hb
      rw [h.1]
      exact List.mem_cons_self d bs
  | cons c as ih =>
    cases b with
    | nil =>
      simp only [List.nil_append, List.cons_append, List.cons.injEq] at h
      refine absurd ?_ ha
      rw [h.1]
      exact List.mem_cons_self _ _
    | cons d bs =>
      simp only [List.cons_append, List.cons.injEq] at h
      have ha' : '/' ∉ as := fun hm => ha (List.mem_cons_of_mem c hm)
      have hb' : '/' ∉ bs := fun hm => hb (List.mem_cons_of_mem d hm)
      rcases ih ha' hb' h.2 with ⟨hab, hxy⟩
      exact ⟨by rw [h.1, hab], hxy⟩

theorem composite_key_inj {t1 t2 i1 i2 : String} (h1 : '/' ∉ t1.data)
    (h2 : '/' ∉ t2.data) (h : composite_key t1 i1 = composite_key t2 i2) :
    t1 = t2 ∧ i1 = i2 := by
  unfold composite_key at h
  have hd := congrArg String.data h
  rw [String.data_append, String.data_append, String.data_append,
    String.data_append] at hd
  have hs : ("/" : String).data = ['/'] := rfl
  rw [hs, List.append_assoc, List.append_assoc] at hd
  simp only [List.singleton_append] at hd
  rcases slashfree_key_chars h1 h2 hd with ⟨ht, hi⟩
  exact ⟨String.ext ht, String.ext hi⟩

theorem dlookup_append {κ α : Type} [DecidableEq κ] (m1 m2 : List (κ × α))
    (k : κ) :
    dlookup (m1 ++ m2) k = ((dlookup m2 k).or (dlookup m1 k)) := by
  unfold dlookup
  rw [List.filter_append, List.getLast?_append]
  rcases hl : (m2.filter fun p => p.1 = k).getLast? with _ | v <;> simp [hl]

theorem collect_field_step_append (folder : String)
    (m : List (String × FieldRec)) (f : RawField) :
    collect_field_step folder m f = m ++ collect_field_step folder [] f := by
  unfold collect_field_step
  rcases h : field_geom f.polys with _ | g <;> simp

theorem collect_fields_append (folder : String) (fs : List RawField)
    (m : List (String × FieldRec)) :
    collect_fields m folder fs = m ++ collect_fields [] folder fs := by
  induction fs generalizing m with
  | nil => simp [collect_fields]
  | cons f fs ih =>
    unfold collect_fields at ih ⊢
    simp only [List.foldl_cons]
    rw [ih (collect_field_step folder m f), ih (collect_field_step folder [] f),
      collect_field_step_append folder m f, List.append_assoc]

theorem dlookup_collect_fields_ne (folder : String) (fs : List RawField)
    (k : String) (hk : ∀ id, k ≠ composite_key folder id) :
    dlookup (collect_fields [] folder fs) k = none := by
  induction fs with
  | nil => rfl
  | cons f fs ih =>
    unfold collect_fields
    simp only [List.foldl_cons]
    rw [show List.foldl (collect_field_step folder) (collect_field_step folder [] f) fs =
        collect_fields (collect_field_step folder [] f) folder fs from rfl,
      collect_fields_append, dlookup_append, ih]
    unfold collect_field_step dlookup
    rcases h : field_geom f.polys with _ | g
    · rfl
    · simp only [List.nil_append, List.filter_cons, List.filter_nil]
      rw [if_neg (by simpa using fun he => (hk f.pfd_id) he.symm)]
      rfl

/-- C7: two merged sources with distinct folder tags (folder basenames
never contain `/`) that share a local field id produce two distinct
composite keys, and the merged field index holds each source's own record —
including its geometry — under its own key; the records are never merged,
even when the geometries are coordinate-identical (nothing in the statement
constrains `r1` and `r2` to differ). -/
theorem c7_sources_never_collapse (s1 s2 : Source) (id : String)
    (r1 r2 : FieldRec)
    (ht1 : '/' ∉ s1.tag.data) (ht2 : '/' ∉ s2.tag.data)
    (hne : s1.tag ≠ s2.tag)
    (hl1 : dlookup (collect_fields [] s1.tag s1.fields)
      (composite_key s1.tag id) = some r1)
    (hl2 : dlookup (collect_fields [] s2.tag s2.fields)
      (composite_key s2.tag id) = some r2) :
    composite_key s1.tag id ≠ composite_key s2.tag id ∧
    dlookup (merged_fields [s1, s2]) (composite_key s1.tag id) = some r1 ∧
    dlookup (merged_fields [s1, s2]) (composite_key s2.tag id) = some r2 := by
  have hm : merged_fields [s1, s2] =
      collect_fields [] s1.tag s1.fields ++ collect_fields [] s2.tag s2.fields := by
    unfold merged_fields
    simp only [List.foldl_cons, List.foldl_nil]
    exact collect_fields_append s2.tag s2.fields _
  refine ⟨?_, ?_, ?_⟩
  · intro he
    exact hne (composite_key_inj ht1 ht2 he).1
  · rw [hm, dlookup_append,
      dlookup_collect_fields_ne s2.tag s2.fields _
        (fun id2 he => hne (composite_key_inj ht1 ht2 he).1)]
    simpa using hl1
  · rw [hm, dlookup_append, hl2]
    rfl

/-- Witness for C7 at concrete inputs: folders `A` and `B` both declare
field id `F1` with coordinate-identical triangles; the merge keeps
`A/F1 ↦ (N1, A)` and `B/F1 ↦ (N2, B)` as distinct entries. -/
theorem c7_sources_never_collapse_witness :
    composite_key "A" "F1" ≠ composite_key "B" "F1" ∧
    dlookup (merged_fields
        [⟨"A", [⟨"F1", "N1", [[[⟨some 0, some 0⟩, ⟨some 1, some 0⟩, ⟨some 0, some 1⟩]]]⟩], []⟩,
         ⟨"B", [⟨"F1", "N2", [[[⟨some 0, some 0⟩, ⟨some 1, some 0⟩, ⟨some 0, some 1⟩]]]⟩], []⟩])
      (composite_key "A" "F1") =
      some ⟨"N1", .polygon [[(0, 0), (0, 1), (1, 0), (0, 0)]], "A", "F1"⟩ ∧
    dlookup (merged_fields
        [⟨"A", [⟨"F1", "N1", [[[⟨some 0, some 0⟩, ⟨some 1, some 0⟩, ⟨some 0, some 1⟩]]]⟩], []⟩,
         ⟨"B", [⟨"F1", "N2", [[[⟨some 0, some 0⟩, ⟨some 1, some 0⟩, ⟨some 0, some 1⟩]]]⟩], []⟩])
      (composite_key "B" "F1") =
      some ⟨"N2", .polygon [[(0, 0), (0, 1), (1, 0), (0, 0)]], "B", "F1"⟩ :=
  c7_sources_never_collapse
    ⟨"A", [⟨"F1", "N1", [[[⟨some 0, some 0⟩, ⟨some 1, some 0⟩, ⟨some 0, some 1⟩]]]⟩], []⟩
    ⟨"B", [⟨"F1", "N2", [[[⟨some 0, some 0⟩, ⟨some 1, some 0⟩, ⟨some 0, some 1⟩]]]⟩], []⟩
    "F1"
    ⟨"N1", .polygon [[(0, 0), (0, 1), (1, 0), (0, 0)]], "A", "F1"⟩
    ⟨"N2", .polygon [[(0, 0), (0, 1), (1, 0), (0, 0)]], "B", "F1"⟩
    (by decide) (by decide) (by decide) (by rfl) (by rfl)

theorem mem_first_keys_of_dlookup {κ α : Type} [DecidableEq κ]
    {m : List (κ × α)} {k : κ} {v : α} (h : dlookup m k = some v) :
    k ∈ first_keys m := by
  induction m with
  | nil => cases h
  | cons p rest ih =>
    rcases p with ⟨k0, v0⟩
    unfold first_keys
    by_cases hk : k = k0
    · rw [hk]
      exact List.mem_cons_self _ _
    · have hrest : dlookup rest k = some v := by
        unfold dlookup at h ⊢
        rw [List.filter_cons, if_neg (by simpa using fun he => hk he.symm)] at h
        exact h
      refine List.mem_cons_of_mem _ ?_
      rw [List.mem_filter]
      exact ⟨ih hrest, by simpa using hk⟩

/-- C8 (amended): a task whose start time yields no parsable year is
recorded under the explicit `'unknown'` bucket (`year = none`) of its
field's composite key, and it appears — task id included — in the unknown
bucket of that field's feature in the final merged output, provided the
composite key has a surviving entry in the merged field index; a task whose
field has no surviving geometry produces no feature at all (see the
counterexample). -/
theorem c8_unknown_year_bucket (sources : List Source) (e : TaskEntry)
    (rec : FieldRec) (he : e ∈ merged_tasks sources) (hy : e.year = none)
    (hf : dlookup (merged_fields sources) e.cid = some rec) :
    ∃ ft ∈ extract_unique_fields sources,
      ft.composite_id = e.cid ∧ ft.field = rec ∧
      ∃ b ∈ ft.buckets, b.year = none ∧ e.tsk_id ∈ b.task_ids := by
  refine ⟨⟨e.cid, rec, mk_buckets (merged_tasks sources) e.cid,
    ((merged_tasks sources).filter (fun x => x.cid = e.cid)).length⟩, ?_, rfl, rfl, ?_⟩
  · unfold extract_unique_fields build_features
    rw [List.mem_filterMap]
    exact ⟨e.cid, mem_first_keys_of_dlookup hf, by rw [hf]; rfl⟩
  · refine ⟨mk_bucket (merged_tasks sources) e.cid none, ?_, rfl, ?_⟩
    · unfold mk_buckets
      refine List.mem_append_right _ ?_
      rw [if_pos, List.mem_singleton]
      rw [List.any_eq_true]
      refine ⟨e, ?_, by simp [hy]⟩
      rw [List.mem_filter]
      exact ⟨he, by simp⟩
    · unfold mk_bucket
      refine List.mem_map.mpr ⟨e, ?_, rfl⟩
      rw [List.mem_filter]
      exact ⟨he, by simp [hy]⟩

/-- Witness for C8 at a concrete input: one source whose field `F1` has a
surviving triangle and whose only task has no parsable start time; the
output feature for `T/F1` carries the task in its unknown bucket. -/
theorem c8_unknown_year_bucket_witness :
    ∃ ft ∈ extract_unique_fields
        [⟨"T", [⟨"F1", "N", [[[⟨some 0, some 0⟩, ⟨some 1, some 0⟩, ⟨some 0, some 1⟩]]]⟩],
          [⟨some "TSK1", some "F1", none, "Wheat"⟩]⟩],
      ft.composite_id = (⟨composite_key "T" "F1", none, some "TSK1", "Wheat"⟩ : TaskEntry).cid ∧
      ft.field = ⟨"N", .polygon [[(0, 0), (0, 1), (1, 0), (0, 0)]], "T", "F1"⟩ ∧
      ∃ b ∈ ft.buckets, b.year = none ∧
        (⟨composite_key "T" "F1", none, some "TSK1", "Wheat"⟩ : TaskEntry).tsk_id ∈ b.task_ids :=
  c8_unknown_year_bucket
    [⟨"T", [⟨"F1", "N", [[[⟨some 0, some 0⟩, ⟨some 1, some 0⟩, ⟨some 0, some 1⟩]]]⟩],
      [⟨some "TSK1", some "F1", none, "Wheat"⟩]⟩]
    ⟨composite_key "T" "F1", none, some "TSK1", "Wheat"⟩
    ⟨"N", .polygon [[(0, 0), (0, 1), (1, 0), (0, 0)]], "T", "F1"⟩
    (by simp [merged_tasks, collect_tasks, collect_task_step]) (by rfl) (by rfl)

/-- Counterexample to C8 as stated: a task with no parsable start time
whose referenced field `F1` kept no geometry is recorded in the merged task
index under the unknown bucket of `T/F1`, yet the final output holds no
features at all — the task is silently dropped. -/
theorem c8_dropped_task_counterexample :
    merged_tasks [⟨"T", [⟨"F1", "N", [[[]]]⟩], [⟨some "TSK1", some "F1", none, "Wheat"⟩]⟩] =
      [⟨"T/F1", none, some "TSK1", "Wheat"⟩] ∧
    extract_unique_fields
      [⟨"T", [⟨"F1", "N", [[[]]]⟩], [⟨some "TSK1", some "F1", none, "Wheat"⟩]⟩] = [] := by
  exact ⟨rfl, rfl⟩

theorem build_farms_head_invariant (k0 : Option String) (rest : List FrmElem) :
    ∀ (v0 : String) (m : List (Option String × String)),
    (rest.foldl (fun acc fr => dictInsert acc fr.A (farm_display_name fr))
        ((k0, v0) :: m)).head? =
      some (k0, ((rest.filter (fun g => g.A = k0)).getLast?).elim v0 farm_display_name) := by
  induction rest with
  | nil =>
    intro v0 m
    simp
  | cons fr rs ih =>
    intro v0 m
    simp only [List.foldl_cons, List.filter_cons]
    by_cases hA : fr.A = k0
    · have hstep : dictInsert ((k0, v0) :: m) fr.A (farm_display_name fr) =
          (k0, farm_display_name fr) ::
            m.map (fun p => if p.1 = fr.A then (fr.A, farm_display_name fr) else p) := by
        unfold dictInsert alookup
        rw [if_pos (by rw [if_pos hA]; rfl)]
        simp only [List.map_cons]
        rw [if_pos hA.symm, hA]
      rw [hstep, ih]
      rw [if_pos (by simpa using hA)]
      rw [List.getLast?_cons]
      rcases hl : (rs.filter (fun g => g.A = k0)).getLast? with _ | g <;> simp [hl]
    · have hne : ¬ (k0, v0).1 = fr.A := fun h => hA h.symm
      have halook : alookup ((k0, v0) :: m) fr.A = alookup m fr.A := by
        show (if fr.A = k0 then some v0 else alookup m fr.A) = alookup m fr.A
        rw [if_neg hA]
      have hfilt : List.filter (fun g => decide (g.A = k0)) (fr :: rs) =
          rs.filter (fun g => g.A = k0) := by
        rw [List.filter_cons, if_neg (by simpa using hA)]
      rcases hs : alookup m fr.A with _ | v
      · have hstep : dictInsert ((k0, v0) :: m) fr.A (farm_display_name fr) =
            (k0, v0) :: (m ++ [(fr.A, farm_display_name fr)]) := by
          unfold dictInsert
          rw [halook, hs]
          rfl
        rw [hstep, ih]
        rw [if_neg (by simpa using hA)]
      · have hstep : dictInsert ((k0, v0) :: m) fr.A (farm_display_name fr) =
            (k0, v0) ::
              m.map (fun p => if p.1 = fr.A then (fr.A, farm_display_name fr) else p) := by
          unfold dictInsert
          rw [halook, hs]
          simp only [Option.isSome_some, if_true, List.map_cons]
          rw [if_neg hne]
        rw [hstep, ih]
        rw [if_neg (by simpa using hA)]

/-- C10 (amended): for every document, the `Farm` column equals the display
name stored under the *first* `FRM` element's id after all `FRM` elements
are read — that is, the name of the last `FRM` element sharing the first
element's id (the first element's own name exactly when no later `FRM`
reuses its id), and `"Unknown Farm"` when the document declares no farms.
The value depends only on the `FRM` elements, never on the farm the task's
field belongs to. -/
theorem c10_farm_column (l : List FrmElem) :
    farm_column l = farm_column_specified l := by
  rcases l with _ | ⟨fr, rest⟩
  · rfl
  · unfold farm_column build_farms farm_column_specified
    simp only [List.foldl_cons]
    have h0 : dictInsert ([] : List (Option String × String)) fr.A
        (farm_display_name fr) = [(fr.A, farm_display_name fr)] := rfl
    rw [h0, build_farms_head_invariant fr.A rest (farm_display_name fr) []]
    simp only [Option.some.injEq]
    rw [List.filter_cons, if_pos (by simp)]
    rw [List.getLast?_cons]
    rcases hl : (rest.filter (fun g => g.A = fr.A)).getLast? with _ | g <;>
      simp [hl]

/-- Witness for C10 at a concrete input: two farms sharing id `F1` with
names `x` then `y`: the column reads `y`, the name of the last `FRM`
carrying the first element's id. -/
theorem c10_farm_column_witness :
    farm_column [⟨some "F1", some "x"⟩, ⟨some "F1", some "y"⟩] =
      farm_column_specified [⟨some "F1", some "x"⟩, ⟨some "F1", some "y"⟩] :=
  c10_farm_column [⟨some "F1", some "x"⟩, ⟨some "F1", some "y"⟩]

/-- Counterexample to C10 as stated: a document declaring two `FRM`
elements with the same id `F1`, named `x` then `y`: the `Farm` column holds
`y`, not the display name `x` of the first `FRM` element. -/
theorem c10_duplicate_id_counterexample :
    farm_column [⟨some "F1", some "x"⟩, ⟨some "F1", some "y"⟩] = "y" ∧
    farm_display_name ⟨some "F1", some "x"⟩ = "x" ∧ ("y" : String) ≠ "x" := by
  exact ⟨rfl, rfl, by decide⟩
